import Mathlib

/-!
Shallow embedding of `src/src/main.c` of the adaptivepwm repository.

Modelling conventions:
* IEEE single-precision float arithmetic is modelled by exact rational
  arithmetic (`ℚ`); all constants of the source (`0.1f`, `0.05f`, ...) are
  the corresponding rationals.
* `uint32_t` tick arithmetic (`HAL_GetTick`, the `current - last` wrapping
  subtractions) is modelled on `ℕ` with explicit reduction modulo `2^32`.
* The `ADC_HandleTypeDef*` pointer is modelled as `Option Unit`
  (`none` = `NULL`); the hardware sample stream consumed by
  `HAL_ADC_GetValue` is a function `Fin 16 → ℕ` (one raw value per
  conversion of a single acquisition), each value truncated to `uint16_t`
  as the source stores it into `adc_buffer`.
* The module-level `volatile` globals (`L_mH`, `C_uF`, `ESR_mOhm`,
  `duty_cycle`, `efficiency`) form `ConverterState`; the `static` local
  timestamps of `control_loop` and `adjust_duty_cycle` are carried in
  `SysState`.
-/

def MAX_DUTY_CYCLE : ℚ := 19/20

def MIN_DUTY_CYCLE : ℚ := 1/20

def TARGET_EFFICIENCY : ℚ := 19/20

def ADC_BUFFER_SIZE : ℕ := 16

def U32_MOD : ℕ := 4294967296

def U16_MOD : ℕ := 65536

/-- `uint32_t` subtraction `now - last` as the source computes it. -/
def tickDiff (now last : ℕ) : ℕ :=
  (now % U32_MOD + U32_MOD - last % U32_MOD) % U32_MOD

/-- The module-level volatile globals of `main.c`. -/
structure ConverterState where
  L_mH : ℚ
  C_uF : ℚ
  ESR_mOhm : ℚ
  duty_cycle : ℚ
  efficiency : ℚ
deriving DecidableEq

/-- `read_adc_safely`: 16 conversions, each stored into the `uint16_t`
buffer, summed into a `uint32_t`, averaged, and cast back to `uint16_t`. -/
def read_adc_safely (samples : Fin ADC_BUFFER_SIZE → ℕ) : ℕ :=
  ((((List.finRange ADC_BUFFER_SIZE).map fun i => samples i % U16_MOD).sum % U32_MOD)
    / ADC_BUFFER_SIZE) % U16_MOD

/-- The estimation core of `measure_electrical_parameters`: the three
linear conversions followed by the range validation, returning the
success flag together with the three computed quantities (which the
source has already stored into the globals by the time it validates). -/
def estimate (raw : ℕ) : Bool × ℚ × ℚ × ℚ :=
  ⟨(if (raw : ℚ) * (1/10) + 1/10 < 1/100 ∨ 100 < (raw : ℚ) * (1/10) + 1/10 then false
    else if (raw : ℚ) * (1/20) + 1 < 1/10 ∨ 1000 < (raw : ℚ) * (1/20) + 1 then false
    else if (raw : ℚ) * (1/5) + 1/2 < 0 ∨ 100 < (raw : ℚ) * (1/5) + 1/2 then false
    else true),
   (raw : ℚ) * (1/10) + 1/10,
   (raw : ℚ) * (1/20) + 1,
   (raw : ℚ) * (1/5) + 1/2⟩

/-- `measure_electrical_parameters`: NULL check, ADC read, conversion
(committed to the globals unconditionally), then range validation. -/
def measure_electrical_parameters (hadc : Option Unit)
    (samples : Fin ADC_BUFFER_SIZE → ℕ) (s : ConverterState) :
    Bool × ConverterState :=
  match hadc with
  | none => (false, s)
  | some _ =>
    let adc_value := read_adc_safely samples
    let r := estimate adc_value
    (r.1, { s with L_mH := r.2.1, C_uF := r.2.2.1, ESR_mOhm := r.2.2.2 })

/-- `calculate_efficiency` with the global `duty_cycle` it reads made an
explicit argument. The `capacitance` parameter is present (and unused)
exactly as in the source. -/
def calculate_efficiency (inductance capacitance esr duty_cycle : ℚ) : ℚ :=
  let switching_losses := (1/100) * inductance * duty_cycle ^ 2
  let conduction_losses := esr * duty_cycle ^ 2
  let total_losses := switching_losses + conduction_losses
  if total_losses < 1/10000 then 1
  else max 0 (min 1 (1 - total_losses))

/-- `calculate_efficiency` as the C call actually happens: it reads the
global `duty_cycle` from the program state and mutates nothing. -/
def calculate_efficiency_c (s : ConverterState)
    (inductance capacitance esr : ℚ) : ℚ × ConverterState :=
  (calculate_efficiency inductance capacitance esr s.duty_cycle, s)

/-- `adjust_duty_cycle`: rate limit, proportional step, clamp, deadband.
Returns (changed?, resulting duty cycle, resulting last-adjustment time). -/
def adjust_duty_cycle (target_efficiency : ℚ)
    (current_time last_adjustment_time : ℕ) (duty_cycle efficiency : ℚ) :
    Bool × ℚ × ℕ :=
  if tickDiff current_time last_adjustment_time < 100 then
    (false, duty_cycle, last_adjustment_time)
  else
    let efficiency_error := target_efficiency - efficiency
    let adjustment_step := efficiency_error * (1/20)
    let new_duty_cycle :=
      max MIN_DUTY_CYCLE (min MAX_DUTY_CYCLE (duty_cycle + adjustment_step))
    if 1/1000 < |new_duty_cycle - duty_cycle| then
      (true, new_duty_cycle, current_time)
    else
      (false, duty_cycle, current_time)

/-- The globals plus the two `static` timestamps. -/
structure SysState where
  conv : ConverterState
  last_measurement_time : ℕ
  last_adjustment_time : ℕ
deriving DecidableEq

/-- The measurement phase of `control_loop` (the 50ms-gated block). -/
def measurementPhase (hadc : Option Unit) (samples : Fin ADC_BUFFER_SIZE → ℕ)
    (current_time : ℕ) (s : SysState) : SysState :=
  if 50 < tickDiff current_time s.last_measurement_time then
    let r := measure_electrical_parameters hadc samples s.conv
    if r.1 then
      { conv := { r.2 with
          efficiency :=
            calculate_efficiency r.2.L_mH r.2.C_uF r.2.ESR_mOhm r.2.duty_cycle },
        last_measurement_time := current_time,
        last_adjustment_time := s.last_adjustment_time }
    else
      { conv := { r.2 with duty_cycle := 1/2, efficiency := 0 },
        last_measurement_time := current_time,
        last_adjustment_time := s.last_adjustment_time }
  else s

/-- `control_loop`: measurement phase, then the unconditional controller
call with the target efficiency constant. -/
def control_loop (hadc : Option Unit) (samples : Fin ADC_BUFFER_SIZE → ℕ)
    (current_time : ℕ) (s : SysState) : SysState :=
  let s1 := measurementPhase hadc samples current_time s
  let r := adjust_duty_cycle TARGET_EFFICIENCY current_time
    s1.last_adjustment_time s1.conv.duty_cycle s1.conv.efficiency
  { conv := { s1.conv with duty_cycle := r.2.1 },
    last_measurement_time := s1.last_measurement_time,
    last_adjustment_time := r.2.2 }

/-- The initial values of the globals (`duty_cycle = 0.5f`, the rest 0). -/
def initialConverterState : ConverterState :=
  { L_mH := 0, C_uF := 0, ESR_mOhm := 0, duty_cycle := 1/2, efficiency := 0 }

def initialSys : SysState :=
  { conv := initialConverterState, last_measurement_time := 0,
    last_adjustment_time := 0 }

/-- One observable action on the shared state: a `control_loop` iteration,
a bare controller invocation, or entry into `error_handler` (which writes
`duty_cycle = MIN_DUTY_CYCLE`). -/
inductive Event where
  | loopIter (hadc : Option Unit) (samples : Fin ADC_BUFFER_SIZE → ℕ) (now : ℕ)
  | adjustOnly (now : ℕ)
  | fault

def stepEvent (s : SysState) (e : Event) : SysState :=
  match e with
  | .loopIter hadc samples now => control_loop hadc samples now s
  | .adjustOnly now =>
      let r := adjust_duty_cycle TARGET_EFFICIENCY now s.last_adjustment_time
        s.conv.duty_cycle s.conv.efficiency
      { conv := { s.conv with duty_cycle := r.2.1 },
        last_measurement_time := s.last_measurement_time,
        last_adjustment_time := r.2.2 }
  | .fault =>
      { conv := { s.conv with duty_cycle := MIN_DUTY_CYCLE },
        last_measurement_time := s.last_measurement_time,
        last_adjustment_time := s.last_adjustment_time }

def run (es : List Event) : SysState := es.foldl stepEvent initialSys

/-- The lifecycle states of the orchestrator. -/
inductive Mode where
  | uninit
  | running
  | faulted
deriving DecidableEq

structure MainState where
  mode : Mode
  sys : SysState

/-- `error_handler`: force the safe minimum duty cycle and idle forever
(modelled as the terminal `faulted` mode). -/
def error_handler (s : MainState) : MainState :=
  { mode := Mode.faulted,
    sys := { s.sys with
      conv := { s.sys.conv with duty_cycle := MIN_DUTY_CYCLE } } }

/-- `main` before its loop: `system_init` succeeds (mode becomes running)
or `error_handler` is entered. -/
def system_start (initOk : Bool) : MainState :=
  if initOk then { mode := Mode.running, sys := initialSys }
  else error_handler { mode := Mode.uninit, sys := initialSys }

/-- One iteration of `main`'s `while(1)` body: `control_loop(NULL)` while
running; in the terminal faulted mode nothing advances. -/
inductive MainInput where
  | iter (now : ℕ)

def main_step (s : MainState) (i : MainInput) : MainState :=
  match s.mode with
  | Mode.faulted => s
  | Mode.uninit => s
  | Mode.running =>
      match i with
      | .iter now => { s with sys := control_loop none (fun _ => 0) now s.sys }

/-- The declared plausible ranges exactly as the specification words them:
inductance in (0.01, 100.0), capacitance in (0.1, 1000.0), ESR in
(0.0, 100.0). -/
abbrev specDeclaredRanges (L C E : ℚ) : Prop :=
  (1/100 < L ∧ L < 100) ∧ (1/10 < C ∧ C < 1000) ∧ (0 < E ∧ E < 100)

/-- C5: for all physical parameters and every duty cycle, the efficiency
model returns 1 when total losses (0.01·L·d² + esr·d²) are below 0.0001
and the clamp of 1 - total losses to [0, 1] otherwise, so its output
always lies in [0.0, 1.0]. -/
theorem calculate_efficiency_spec_bounds (inductance capacitance esr d : ℚ) :
    0 ≤ calculate_efficiency inductance capacitance esr d ∧
    calculate_efficiency inductance capacitance esr d ≤ 1 ∧
    calculate_efficiency inductance capacitance esr d =
      (if (1/100) * inductance * d ^ 2 + esr * d ^ 2 < 1/10000 then 1
       else max 0 (min 1 (1 - ((1/100) * inductance * d ^ 2 + esr * d ^ 2)))) := by
  refine ⟨?_, ?_, by simp only [calculate_efficiency]⟩ <;>
    simp only [calculate_efficiency] <;> split_ifs with h
  · exact zero_le_one
  · exact le_max_left 0 _
  · exact le_refl 1
  · exact max_le zero_le_one (min_le_left 1 _)

/-- C7: the efficiency model is a pure function of the physical parameters
and the duty cycle it reads: it leaves the program state untouched, and two
calls from states agreeing on the duty cycle (but otherwise arbitrary)
return equal results given equal parameter arguments. -/
theorem calculate_efficiency_deterministic (s1 s2 : ConverterState)
    (inductance capacitance esr : ℚ) (h : s1.duty_cycle = s2.duty_cycle) :
    (calculate_efficiency_c s1 inductance capacitance esr).1 =
      (calculate_efficiency_c s2 inductance capacitance esr).1 ∧
    (calculate_efficiency_c s1 inductance capacitance esr).2 = s1 ∧
    (calculate_efficiency_c s2 inductance capacitance esr).2 = s2 := by
  unfold calculate_efficiency_c
  rw [h]
  exact ⟨rfl, rfl, rfl⟩

/-- Witness for C7 at two concrete states differing everywhere except in
the duty cycle. -/
theorem calculate_efficiency_deterministic_witness :
    (⟨1, 2, 3, 1/2, 0⟩ : ConverterState).duty_cycle =
      (⟨4, 5, 6, 1/2, 1⟩ : ConverterState).duty_cycle ∧
    ((calculate_efficiency_c ⟨1, 2, 3, 1/2, 0⟩ 10 6 20).1 =
      (calculate_efficiency_c ⟨4, 5, 6, 1/2, 1⟩ 10 6 20).1 ∧
    (calculate_efficiency_c ⟨1, 2, 3, 1/2, 0⟩ 10 6 20).2 = ⟨1, 2, 3, 1/2, 0⟩ ∧
    (calculate_efficiency_c ⟨4, 5, 6, 1/2, 1⟩ 10 6 20).2 = ⟨4, 5, 6, 1/2, 1⟩) :=
  ⟨rfl, calculate_efficiency_deterministic ⟨1, 2, 3, 1/2, 0⟩ ⟨4, 5, 6, 1/2, 1⟩ 10 6 20 rfl⟩

/-- C10: the efficiency model never looks at its capacitance argument: two
calls agreeing on inductance, ESR and duty cycle give equal results for
arbitrary capacitances. -/
theorem calculate_efficiency_capacitance_independent
    (inductance c1 c2 esr d : ℚ) :
    calculate_efficiency inductance c1 esr d =
      calculate_efficiency inductance c2 esr d := rfl

/-- C9: calling `measure_electrical_parameters` with a NULL ADC handle
returns false with the whole state (in particular the three stored
physical parameters) unchanged, for every possible ADC sample stream —
so no ADC access can have taken place. -/
theorem measure_null_returns_false_unchanged
    (samples : Fin ADC_BUFFER_SIZE → ℕ) (s : ConverterState) :
    measure_electrical_parameters none samples s = (false, s) := rfl

/-- C1 counterexample: at raw sample 2048 the estimation fails (inductance
204.9 is outside (0.01, 100.0)), yet the stored inductance is changed by
the call — the out-of-range value is committed before validation. -/
theorem measure_failure_commits_counterexample :
    (measure_electrical_parameters (some ()) (fun _ => 2048)
        initialConverterState).1 = false ∧
    (measure_electrical_parameters (some ()) (fun _ => 2048)
        initialConverterState).2.L_mH ≠ initialConverterState.L_mH := by
  have hraw : read_adc_safely (fun _ => 2048) = 2048 := by decide
  simp only [measure_electrical_parameters, estimate, hraw, initialConverterState]
  norm_num

/-- C1 amended: when estimation fails, the call returns false, but the
three stored physical parameters have been overwritten with the freshly
computed (possibly out-of-range) values; only duty cycle and efficiency
are left unchanged by the call itself. -/
theorem measure_failure_overwrites_params
    (samples : Fin ADC_BUFFER_SIZE → ℕ) (s : ConverterState)
    (hfail : (measure_electrical_parameters (some ()) samples s).1 = false) :
    (measure_electrical_parameters (some ()) samples s).2.L_mH =
      (read_adc_safely samples : ℚ) * (1/10) + 1/10 ∧
    (measure_electrical_parameters (some ()) samples s).2.C_uF =
      (read_adc_safely samples : ℚ) * (1/20) + 1 ∧
    (measure_electrical_parameters (some ()) samples s).2.ESR_mOhm =
      (read_adc_safely samples : ℚ) * (1/5) + 1/2 ∧
    (measure_electrical_parameters (some ()) samples s).2.duty_cycle =
      s.duty_cycle ∧
    (measure_electrical_parameters (some ()) samples s).2.efficiency =
      s.efficiency := by
  exact ⟨rfl, rfl, rfl, rfl, rfl⟩

/-- Witness for the amended C1 at the failing raw sample 2048. -/
theorem measure_failure_overwrites_params_witness :
    (measure_electrical_parameters (some ()) (fun _ => 2048)
        initialConverterState).1 = false ∧
    ((measure_electrical_parameters (some ()) (fun _ => 2048)
        initialConverterState).2.L_mH =
      (read_adc_safely (fun _ => 2048) : ℚ) * (1/10) + 1/10 ∧
    (measure_electrical_parameters (some ()) (fun _ => 2048)
        initialConverterState).2.C_uF =
      (read_adc_safely (fun _ => 2048) : ℚ) * (1/20) + 1 ∧
    (measure_electrical_parameters (some ()) (fun _ => 2048)
        initialConverterState).2.ESR_mOhm =
      (read_adc_safely (fun _ => 2048) : ℚ) * (1/5) + 1/2 ∧
    (measure_electrical_parameters (some ()) (fun _ => 2048)
        initialConverterState).2.duty_cycle =
      initialConverterState.duty_cycle ∧
    (measure_electrical_parameters (some ()) (fun _ => 2048)
        initialConverterState).2.efficiency =
      initialConverterState.efficiency) :=
  ⟨by have hraw : read_adc_safely (fun _ => 2048) = 2048 := by decide
      simp only [measure_electrical_parameters, estimate, hraw]
      norm_num,
   measure_failure_overwrites_params (fun _ => 2048) initialConverterState
    (by have hraw : read_adc_safely (fun _ => 2048) = 2048 := by decide
        simp only [measure_electrical_parameters, estimate, hraw]
        norm_num)⟩

/-- C4: for every raw sample in [0, 4095] the estimator computes
inductance = raw·0.1 + 0.1, capacitance = raw·0.05 + 1.0,
esr = raw·0.2 + 0.5, and succeeds exactly when all three lie within the
declared ranges (0.01, 100.0), (0.1, 1000.0) and (0.0, 100.0): a single
out-of-range quantity fails the whole estimation. -/
theorem estimate_formulas_and_success_iff (raw : ℕ) (h : raw ≤ 4095) :
    (estimate raw).2.1 = (raw : ℚ) * (1/10) + 1/10 ∧
    (estimate raw).2.2.1 = (raw : ℚ) * (1/20) + 1 ∧
    (estimate raw).2.2.2 = (raw : ℚ) * (1/5) + 1/2 ∧
    ((estimate raw).1 = true ↔
      specDeclaredRanges ((raw : ℚ) * (1/10) + 1/10) ((raw : ℚ) * (1/20) + 1)
        ((raw : ℚ) * (1/5) + 1/2)) := by
  have hq : (raw : ℚ) ≤ 4095 := by exact_mod_cast h
  have h0 : (0:ℚ) ≤ (raw : ℚ) := Nat.cast_nonneg raw
  refine ⟨rfl, rfl, rfl, ?_⟩
  simp only [estimate, specDeclaredRanges]
  split_ifs with h1 h2 h3
  · simp only [Bool.false_eq_true, false_iff]
    intro hr
    rcases h1 with h1 | h1
    · linarith [hr.1.1]
    · linarith [hr.1.2]
  · simp only [Bool.false_eq_true, false_iff]
    intro hr
    rcases h2 with h2 | h2
    · linarith [hr.2.1.1]
    · linarith [hr.2.1.2]
  · simp only [Bool.false_eq_true, false_iff]
    intro hr
    rcases h3 with h3 | h3
    · linarith [hr.2.2.1]
    · linarith [hr.2.2.2]
  · simp only [true_iff]
    push_neg at h1 h2 h3
    have hE : (raw : ℚ) * (1/5) + 1/2 ≤ 100 := h3.2
    have hn : raw ≤ 497 := by
      by_contra hc
      push_neg at hc
      have : (498:ℚ) ≤ (raw : ℚ) := by exact_mod_cast hc
      linarith
    have hq497 : (raw : ℚ) ≤ 497 := by exact_mod_cast hn
    refine ⟨⟨by linarith, by linarith⟩, ⟨by linarith, by linarith⟩,
      ⟨by linarith, by linarith⟩⟩

/-- Witness for C4 at the valid raw sample 100 (inductance 10.1,
capacitance 6.0, ESR 20.5, all in range, estimation succeeds). -/
theorem estimate_formulas_and_success_iff_witness :
    (100:ℕ) ≤ 4095 ∧
    ((estimate 100).2.1 = ((100:ℕ) : ℚ) * (1/10) + 1/10 ∧
    (estimate 100).2.2.1 = ((100:ℕ) : ℚ) * (1/20) + 1 ∧
    (estimate 100).2.2.2 = ((100:ℕ) : ℚ) * (1/5) + 1/2 ∧
    ((estimate 100).1 = true ↔
      specDeclaredRanges (((100:ℕ) : ℚ) * (1/10) + 1/10)
        (((100:ℕ) : ℚ) * (1/20) + 1) (((100:ℕ) : ℚ) * (1/5) + 1/2))) :=
  ⟨by decide, estimate_formulas_and_success_iff 100 (by decide)⟩

/-- C6: if the controller's first invocation records its timestamp
(it passed the rate-limit gate) and a second invocation happens less than
100ms later, the second invocation reports no change and leaves both the
duty cycle it was handed and the stored last-adjustment timestamp exactly
as the first invocation left them. -/
theorem adjust_second_call_within_window_noop (target d e : ℚ)
    (l0 t1 t2 : ℕ) (hfirst : 100 ≤ tickDiff t1 l0) (hle : t1 ≤ t2)
    (ht2 : t2 < 4294967296) (hwin : t2 - t1 < 100) :
    (adjust_duty_cycle target t2 (adjust_duty_cycle target t1 l0 d e).2.2
        (adjust_duty_cycle target t1 l0 d e).2.1 e).1 = false ∧
    (adjust_duty_cycle target t2 (adjust_duty_cycle target t1 l0 d e).2.2
        (adjust_duty_cycle target t1 l0 d e).2.1 e).2.1 =
      (adjust_duty_cycle target t1 l0 d e).2.1 ∧
    (adjust_duty_cycle target t2 (adjust_duty_cycle target t1 l0 d e).2.2
        (adjust_duty_cycle target t1 l0 d e).2.1 e).2.2 =
      (adjust_duty_cycle target t1 l0 d e).2.2 := by
  have hlast : (adjust_duty_cycle target t1 l0 d e).2.2 = t1 := by
    simp only [adjust_duty_cycle]
    rw [if_neg (not_lt.2 hfirst)]
    split_ifs <;> rfl
  have hgate : tickDiff t2 t1 < 100 := by
    unfold tickDiff U32_MOD
    omega
  have hsecond : ∀ dmid : ℚ,
      adjust_duty_cycle target t2 t1 dmid e = (false, dmid, t1) := by
    intro dmid
    simp only [adjust_duty_cycle]
    rw [if_pos hgate]
  rw [hlast, hsecond]
  exact ⟨rfl, rfl, rfl⟩

/-- Witness for C6: first call at tick 100 (gate passes against the
initial timestamp 0), second call at tick 150. -/
theorem adjust_second_call_within_window_noop_witness :
    100 ≤ tickDiff 100 0 ∧ (100:ℕ) ≤ 150 ∧ (150:ℕ) < 4294967296 ∧
    150 - 100 < 100 ∧
    ((adjust_duty_cycle (19/20) 150 (adjust_duty_cycle (19/20) 100 0 (1/2) 0).2.2
        (adjust_duty_cycle (19/20) 100 0 (1/2) 0).2.1 0).1 = false ∧
    (adjust_duty_cycle (19/20) 150 (adjust_duty_cycle (19/20) 100 0 (1/2) 0).2.2
        (adjust_duty_cycle (19/20) 100 0 (1/2) 0).2.1 0).2.1 =
      (adjust_duty_cycle (19/20) 100 0 (1/2) 0).2.1 ∧
    (adjust_duty_cycle (19/20) 150 (adjust_duty_cycle (19/20) 100 0 (1/2) 0).2.2
        (adjust_duty_cycle (19/20) 100 0 (1/2) 0).2.1 0).2.2 =
      (adjust_duty_cycle (19/20) 100 0 (1/2) 0).2.2) :=
  ⟨by decide, by decide, by decide, by decide,
   adjust_second_call_within_window_noop (19/20) (1/2) 0 0 100 150
    (by decide) (by decide) (by decide) (by decide)⟩

/-- C3: whenever the 50ms-gated measurement phase of `control_loop` runs
and the measurement fails (NULL handle, sampler failure or invalid
measurement), the phase leaves the state with `duty_cycle = 0.5` and
`efficiency = 0.0` instead of the previous values. -/
theorem measurement_failure_fail_safe (hadc : Option Unit)
    (samples : Fin ADC_BUFFER_SIZE → ℕ) (now : ℕ) (s : SysState)
    (hrun : 50 < tickDiff now s.last_measurement_time)
    (hfail : (measure_electrical_parameters hadc samples s.conv).1 = false) :
    (measurementPhase hadc samples now s).conv.duty_cycle = 1/2 ∧
      (measurementPhase hadc samples now s).conv.efficiency = 0 := by
  simp only [measurementPhase]
  rw [if_pos hrun]
  simp [hfail]

/-- Witness for C3: the spec's scenario, raw sample 2048; from the initial
state at tick 51 the 50ms gate is open, estimation fails (inductance
204.9 is out of range), and the phase forces duty 0.5 and efficiency 0. -/
theorem measurement_failure_fail_safe_witness :
    50 < tickDiff 51 initialSys.last_measurement_time ∧
    (measure_electrical_parameters (some ()) (fun _ => 2048)
        initialSys.conv).1 = false ∧
    ((measurementPhase (some ()) (fun _ => 2048) 51 initialSys).conv.duty_cycle
        = 1/2 ∧
      (measurementPhase (some ()) (fun _ => 2048) 51 initialSys).conv.efficiency
        = 0) :=
  ⟨by decide,
   by have hraw : read_adc_safely (fun _ => 2048) = 2048 := by decide
      simp only [measure_electrical_parameters, estimate, hraw]
      norm_num,
   measurement_failure_fail_safe (some ()) (fun _ => 2048) 51 initialSys
    (by decide)
    (by have hraw : read_adc_safely (fun _ => 2048) = 2048 := by decide
        simp only [measure_electrical_parameters, estimate, hraw]
        norm_num)⟩

lemma adjust_duty_cycle_result_bounds (t : ℚ) (now last : ℕ) (d e : ℚ)
    (h1 : MIN_DUTY_CYCLE ≤ d) (h2 : d ≤ MAX_DUTY_CYCLE) :
    MIN_DUTY_CYCLE ≤ (adjust_duty_cycle t now last d e).2.1 ∧
      (adjust_duty_cycle t now last d e).2.1 ≤ MAX_DUTY_CYCLE := by
  simp only [adjust_duty_cycle]
  split_ifs with hg hd
  · exact ⟨h1, h2⟩
  · refine ⟨le_max_left _ _, max_le ?_ (min_le_left _ _)⟩
    norm_num [MIN_DUTY_CYCLE, MAX_DUTY_CYCLE]
  · exact ⟨h1, h2⟩

lemma measurementPhase_duty_cases (hadc : Option Unit)
    (samples : Fin ADC_BUFFER_SIZE → ℕ) (now : ℕ) (s : SysState) :
    (measurementPhase hadc samples now s).conv.duty_cycle = s.conv.duty_cycle ∨
      (measurementPhase hadc samples now s).conv.duty_cycle = 1/2 := by
  simp only [measurementPhase]
  split_ifs with h1 h2
  · left
    cases hadc <;> rfl
  · right
    rfl
  · left
    rfl

lemma stepEvent_duty_bounds (s : SysState) (e : Event)
    (h : MIN_DUTY_CYCLE ≤ s.conv.duty_cycle ∧
      s.conv.duty_cycle ≤ MAX_DUTY_CYCLE) :
    MIN_DUTY_CYCLE ≤ (stepEvent s e).conv.duty_cycle ∧
      (stepEvent s e).conv.duty_cycle ≤ MAX_DUTY_CYCLE := by
  cases e with
  | loopIter hadc samples now =>
      have hd : MIN_DUTY_CYCLE ≤ (measurementPhase hadc samples now s).conv.duty_cycle ∧
          (measurementPhase hadc samples now s).conv.duty_cycle ≤ MAX_DUTY_CYCLE := by
        rcases measurementPhase_duty_cases hadc samples now s with hmp | hmp <;> rw [hmp]
        · exact h
        · norm_num [MIN_DUTY_CYCLE, MAX_DUTY_CYCLE]
      exact adjust_duty_cycle_result_bounds TARGET_EFFICIENCY now
        (measurementPhase hadc samples now s).last_adjustment_time
        (measurementPhase hadc samples now s).conv.duty_cycle
        (measurementPhase hadc samples now s).conv.efficiency hd.1 hd.2
  | adjustOnly now =>
      exact adjust_duty_cycle_result_bounds TARGET_EFFICIENCY now
        s.last_adjustment_time s.conv.duty_cycle s.conv.efficiency h.1 h.2
  | fault =>
      norm_num [stepEvent, MIN_DUTY_CYCLE, MAX_DUTY_CYCLE]

lemma run_from_duty_bounds (es : List Event) (s : SysState)
    (h : MIN_DUTY_CYCLE ≤ s.conv.duty_cycle ∧
      s.conv.duty_cycle ≤ MAX_DUTY_CYCLE) :
    MIN_DUTY_CYCLE ≤ (es.foldl stepEvent s).conv.duty_cycle ∧
      (es.foldl stepEvent s).conv.duty_cycle ≤ MAX_DUTY_CYCLE := by
  induction es generalizing s with
  | nil => exact h
  | cons e es ih => exact ih (stepEvent s e) (stepEvent_duty_bounds s e h)

/-- C2: starting from the initial state (`duty_cycle = 0.5`), after every
sequence of control-loop iterations, controller invocations and fault
events, the duty cycle lies in [MIN_DUTY_CYCLE, MAX_DUTY_CYCLE] =
[0.05, 0.95]: every write (controller clamp, fail-safe 0.5 reset, fault
handler 0.05) keeps it within these bounds. -/
theorem duty_cycle_always_bounded (es : List Event) :
    MIN_DUTY_CYCLE ≤ (run es).conv.duty_cycle ∧
      (run es).conv.duty_cycle ≤ MAX_DUTY_CYCLE := by
  refine run_from_duty_bounds es initialSys ?_
  norm_num [initialSys, initialConverterState, MIN_DUTY_CYCLE, MAX_DUTY_CYCLE]

lemma main_step_faulted_fixed (s : MainState) (h : s.mode = Mode.faulted)
    (i : MainInput) : main_step s i = s := by
  cases i
  unfold main_step
  rw [h]

/-- C8: when system initialization fails, the system enters the terminal
faulted state with `duty_cycle` forced to MIN_DUTY_CYCLE (0.05), and no
sequence of further main-loop iterations changes anything: the state
(in particular the duty cycle) stays fixed for the rest of the process
lifetime. -/
theorem init_failure_faulted_terminal (inputs : List MainInput) :
    (inputs.foldl main_step (system_start false)).mode = Mode.faulted ∧
    (inputs.foldl main_step (system_start false)).sys.conv.duty_cycle =
      MIN_DUTY_CYCLE ∧
    inputs.foldl main_step (system_start false) = system_start false := by
  have hmode : (system_start false).mode = Mode.faulted := rfl
  have hfix : ∀ (l : List MainInput) (s : MainState), s.mode = Mode.faulted →
      l.foldl main_step s = s := by
    intro l
    induction l with
    | nil => intro s hs; rfl
    | cons i l ih =>
        intro s hs
        rw [List.foldl_cons, main_step_faulted_fixed s hs i]
        exact ih s hs
  rw [hfix inputs (system_start false) hmode]
  exact ⟨rfl, rfl, rfl⟩
